import Mathlib

/-!
Verification of the procedural-animation core of the rig repository.

Two models are embedded from the source:
- the bounce model of src/scripts/animate_bouncing_ball_walk.py
  (function create_bounce_animation), and
- the quadruped walk-gait model of src/scripts/animate_baby_camel_walk.py
  (function animate_direct).

Machine floats are idealised as real numbers; the bounce decomposition
while-loop is embedded with an explicit fuel argument (none = the loop was
still running after the given number of iterations), together with a
monotonicity lemma showing that the result is independent of the fuel once
the loop has stopped.
-/

namespace Rig

namespace Ball

/-- Animation parameter from the source: gravity = 9.8. -/
def gravity : ℝ := 9.8

/-- Animation parameter from the source: initial_height = 2.0. -/
def initial_height : ℝ := 2

/-- Animation parameter from the source: bounce_damping = 0.7. -/
def bounce_damping : ℝ := 0.7

/-- Animation parameter from the source: forward_speed = 3.0. -/
def forward_speed : ℝ := 3

/-- Animation parameter from the source: fps = 24. -/
def fps : ℝ := 24

/-- The bounce-epoch decomposition loop of create_bounce_animation,
with the gravity g and damping d abstracted, and an explicit fuel
bounding the number of iterations.  Returns (bounce_time,
remaining_height) when the while-loop stops within the fuel.  Mirrors:
while current_time > 0: fall_time = sqrt(2*remaining_height/gravity);
if current_time <= fall_time: bounce_time = current_time; break;
current_time -= fall_time; remaining_height *= bounce_damping ** 2;
if remaining_height < 0.01: bounce_time = 0; remaining_height = 0; break. -/
noncomputable def bounceLoop (g d : ℝ) : ℕ → ℝ → ℝ → Option (ℝ × ℝ)
  | 0, _, _ => none
  | fuel + 1, current_time, remaining_height =>
    if 0 < current_time then
      if current_time ≤ Real.sqrt (2 * remaining_height / g) then
        some (current_time, remaining_height)
      else if remaining_height * d ^ 2 < 0.01 then
        some (0, 0)
      else
        bounceLoop g d fuel (current_time - Real.sqrt (2 * remaining_height / g))
          (remaining_height * d ^ 2)
    else some (0, remaining_height)

/-- The decomposition state reached at a given time with the source's
hardcoded parameters (fuel 8 suffices for every time, see below). -/
noncomputable def bounceState (t : ℝ) : Option (ℝ × ℝ) :=
  bounceLoop gravity bounce_damping 8 t initial_height

/-- Height computation after the loop: if remaining_height > 0.01 the
parabolic height floored at the ball radius 0.5, else the resting height
0.5.  Mirrors lines 66-72 of the source. -/
noncomputable def heightOf (st : ℝ × ℝ) : ℝ :=
  if 0.01 < st.2 then max 0.5 (st.2 - 0.5 * gravity * st.1 ^ 2) else 0.5

/-- Source: circumference = math.pi (comment: 2*pi*r with r = 0.5). -/
noncomputable def circumference : ℝ := Real.pi

/-- Forward offset: ball.location.x = time * forward_speed. -/
def forward_offset (t : ℝ) : ℝ := t * forward_speed

/-- Source: rotations = (ball.location.x / circumference) * 2 * math.pi. -/
noncomputable def rotations (x : ℝ) : ℝ := x / circumference * 2 * Real.pi

/-- Source: ball.rotation_euler.y = -rotations. -/
noncomputable def rotation_y (t : ℝ) : ℝ := -(rotations (forward_offset t))

/-- Source: squash = 1.0 - (impact_threshold - height) * 0.5, with
impact_threshold = 0.6. -/
noncomputable def squashOf (height : ℝ) : ℝ := 1 - (0.6 - height) * 0.5

/-- The (x, y, z) scale written for a frame with the given height.
Mirrors lines 83-91 of the source: below the impact threshold 0.6 the
ball is squashed in z and widened in x and y, otherwise scale is
identity. -/
noncomputable def scaleOf (height : ℝ) : ℝ × ℝ × ℝ :=
  if height < 0.6 then
    (1 + (1 - squashOf height) * 0.5, 1 + (1 - squashOf height) * 0.5, squashOf height)
  else (1, 1, 1)

end Ball

namespace Camel

/-- Identity of a rig part animated by animate_direct.  The four leg
indices are 0 = front left, 1 = front right, 2 = back left, 3 = back
right, each leg consisting of an upper part, a lower part and a hoof. -/
inductive PartId where
  | body | head | neck | tail | hump
  | eyeL | eyeR | earL | earR | snout
  | legUpper (i : Fin 4) | legLower (i : Fin 4) | hoof (i : Fin 4)
deriving DecidableEq

/-- Which rig parts are present in the scene (bpy.data.objects.get
returning an object or None). -/
structure Scene where
  body : Bool
  head : Bool
  neck : Bool
  tail : Bool
  hump : Bool
  eyeL : Bool
  eyeR : Bool
  earL : Bool
  earR : Bool
  snout : Bool
  legUpper : Fin 4 → Bool
  legLower : Fin 4 → Bool
  hoof : Fin 4 → Bool

/-- A leg entry is kept in the legs dictionary only when all three of
its parts exist (if upper and lower and hoof). -/
def legPresent (s : Scene) (i : Fin 4) : Bool :=
  s.legUpper i && s.legLower i && s.hoof i

/-- One recorded keyframe: the channels written for one object at one
frame (location x and z, rotation about y and z); channels the source
does not write for that object are none. -/
structure Key where
  part : PartId
  x : Option ℝ
  z : Option ℝ
  rotY : Option ℝ
  rotZ : Option ℝ

/-- Walk phase: phase = (frame / 30.0) * math.pi. -/
noncomputable def phase (f : ℝ) : ℝ := f / 30 * Real.pi

/-- The period of the phase function: phase (f + 60) = phase f + 2 pi,
so one full gait cycle spans 60 frames. -/
def cycle_length : ℝ := 60

/-- Global forward movement: forward_offset = (frame / 60.0) * 3.0,
computed once per frame and shared by every part. -/
noncomputable def forward_offset (f : ℝ) : ℝ := f / 60 * 3

/-- Body vertical position: 1.2 + sin(phase * 2) * 0.1. -/
noncomputable def body_z (f : ℝ) : ℝ := 1.2 + Real.sin (phase f * 2) * 0.1

/-- Head vertical position: 1.9 + sin(phase * 2) * 0.08. -/
noncomputable def head_z (f : ℝ) : ℝ := 1.9 + Real.sin (phase f * 2) * 0.08

/-- Neck pitch: radians(30) + sin(phase * 2) * 0.1. -/
noncomputable def neck_rot_y (f : ℝ) : ℝ := Real.pi / 6 + Real.sin (phase f * 2) * 0.1

/-- Tail yaw: sin(phase * 2) * 0.3. -/
noncomputable def tail_rot_z (f : ℝ) : ℝ := Real.sin (phase f * 2) * 0.3

/-- Leg lift: max(0, sin(leg_phase)) * leg_height with leg_height 0.15. -/
noncomputable def lift (leg_phase : ℝ) : ℝ := max 0 (Real.sin leg_phase) * 0.15

/-- Leg swing: cos(leg_phase) * leg_swing with leg_swing 0.3. -/
noncomputable def swing (leg_phase : ℝ) : ℝ := Real.cos leg_phase * 0.3

/-- Rest x offset of each leg: 0.5 for the two front legs (indices 0
and 1), -0.5 for the two back legs (indices 2 and 3). -/
def legBaseX (i : Fin 4) : ℝ := if (i : ℕ) ≤ 1 then 0.5 else -0.5

/-- The phase used for a leg: the pair front-left + back-right (0, 3)
uses the walk phase, the pair front-right + back-left (1, 2) the walk
phase plus pi. -/
noncomputable def legPhaseOf (i : Fin 4) (f : ℝ) : ℝ :=
  if i = 0 ∨ i = 3 then phase f else phase f + Real.pi

/-- Rest x offset of each part, as read off the constant term of each
location.x assignment in the source. -/
def restX : PartId → ℝ
  | .body => 0
  | .head => 1.2
  | .neck => 0.8
  | .tail => -1
  | .hump => -0.2
  | .eyeL => 1.25
  | .eyeR => 1.25
  | .earL => 1.1
  | .earR => 1.1
  | .snout => 1.45
  | .legUpper i => legBaseX i
  | .legLower i => legBaseX i
  | .hoof i => legBaseX i

/-- The model-specific local x offset of each part: the swing term for
leg parts, zero for every other part. -/
noncomputable def localX : PartId → ℝ → ℝ
  | .legUpper i, f => swing (legPhaseOf i f)
  | .legLower i, f => swing (legPhaseOf i f)
  | .hoof i, f => swing (legPhaseOf i f)
  | _, _ => 0

noncomputable def bodyKey (f : ℝ) : Key :=
  ⟨.body, some (forward_offset f), some (body_z f), none, none⟩

noncomputable def headKey (f : ℝ) : Key :=
  ⟨.head, some (1.2 + forward_offset f), some (head_z f), none, none⟩

noncomputable def neckKey (f : ℝ) : Key :=
  ⟨.neck, some (0.8 + forward_offset f), none, some (neck_rot_y f), none⟩

noncomputable def tailKey (f : ℝ) : Key :=
  ⟨.tail, some (-1 + forward_offset f), none, none, some (tail_rot_z f)⟩

noncomputable def humpKey (f : ℝ) : Key :=
  ⟨.hump, some (-0.2 + forward_offset f), none, none, none⟩

noncomputable def eyeLKey (f : ℝ) : Key :=
  ⟨.eyeL, some (1.25 + forward_offset f), none, none, none⟩

noncomputable def eyeRKey (f : ℝ) : Key :=
  ⟨.eyeR, some (1.25 + forward_offset f), none, none, none⟩

noncomputable def earLKey (f : ℝ) : Key :=
  ⟨.earL, some (1.1 + forward_offset f), none, none, none⟩

noncomputable def earRKey (f : ℝ) : Key :=
  ⟨.earR, some (1.1 + forward_offset f), none, none, none⟩

noncomputable def snoutKey (f : ℝ) : Key :=
  ⟨.snout, some (1.45 + forward_offset f), none, none, none⟩

/-- Keyframes written for the upper part of leg i: x = base_x +
forward_offset + swing, z = 0.85 + lift, rotation y = sin(leg_phase) * 0.2. -/
noncomputable def legUpperKey (i : Fin 4) (leg_phase f : ℝ) : Key :=
  ⟨.legUpper i, some (legBaseX i + forward_offset f + swing leg_phase),
    some (0.85 + lift leg_phase), some (Real.sin leg_phase * 0.2), none⟩

/-- Keyframes written for the lower part of leg i: x = base_x +
forward_offset + swing, z = 0.3 + lift, rotation y = -sin(leg_phase) * 0.15. -/
noncomputable def legLowerKey (i : Fin 4) (leg_phase f : ℝ) : Key :=
  ⟨.legLower i, some (legBaseX i + forward_offset f + swing leg_phase),
    some (0.3 + lift leg_phase), some (-Real.sin leg_phase * 0.15), none⟩

/-- Keyframes written for the hoof of leg i: x = base_x +
forward_offset + swing, z = 0.05 + lift. -/
noncomputable def hoofKey (i : Fin 4) (leg_phase f : ℝ) : Key :=
  ⟨.hoof i, some (legBaseX i + forward_offset f + swing leg_phase),
    some (0.05 + lift leg_phase), none, none⟩

/-- The keyframes of one leg, or nothing when the leg is not in the
legs dictionary. -/
noncomputable def legKeys (s : Scene) (i : Fin 4) (leg_phase f : ℝ) : List Key :=
  if legPresent s i then
    [legUpperKey i leg_phase f, legLowerKey i leg_phase f, hoofKey i leg_phase f]
  else []

/-- Everything recorded for one frame by animate_direct, in source
order: body, head, neck, tail, hump, eyes, ears, snout, then the leg
pair front-left + back-right at the walk phase, then the pair
front-right + back-left at the walk phase plus pi; each part appears
only when present in the scene. -/
noncomputable def animateFrame (s : Scene) (f : ℝ) : List Key :=
  (if s.body then [bodyKey f] else []) ++
  (if s.head then [headKey f] else []) ++
  (if s.neck then [neckKey f] else []) ++
  (if s.tail then [tailKey f] else []) ++
  (if s.hump then [humpKey f] else []) ++
  (if s.eyeL then [eyeLKey f] else []) ++
  (if s.eyeR then [eyeRKey f] else []) ++
  (if s.earL then [earLKey f] else []) ++
  (if s.earR then [earRKey f] else []) ++
  (if s.snout then [snoutKey f] else []) ++
  legKeys s 0 (phase f) f ++
  legKeys s 3 (phase f) f ++
  legKeys s 1 (phase f + Real.pi) f ++
  legKeys s 2 (phase f + Real.pi) f

/-- A scene with every part present. -/
def sceneFull : Scene :=
  ⟨true, true, true, true, true, true, true, true, true, true,
    fun _ => true, fun _ => true, fun _ => true⟩

/-- A scene whose front-left hoof is absent, everything else present:
leg 0 is then dropped from the legs dictionary. -/
def sceneNoHoof0 : Scene :=
  ⟨true, true, true, true, true, true, true, true, true, true,
    fun _ => true, fun _ => true, fun i => decide (i ≠ 0)⟩

end Camel

namespace Ball

lemma bounceLoop_zero (g d ct r : ℝ) : bounceLoop g d 0 ct r = none := rfl

lemma bounceLoop_succ (g d : ℝ) (fuel : ℕ) (ct r : ℝ) :
    bounceLoop g d (fuel + 1) ct r =
      if 0 < ct then
        if ct ≤ Real.sqrt (2 * r / g) then
          some (ct, r)
        else if r * d ^ 2 < 0.01 then
          some (0, 0)
        else
          bounceLoop g d fuel (ct - Real.sqrt (2 * r / g)) (r * d ^ 2)
      else some (0, r) := rfl

lemma isSome_step {g d : ℝ} {fuel : ℕ} {ct r : ℝ}
    (h : (bounceLoop g d fuel (ct - Real.sqrt (2 * r / g)) (r * d ^ 2)).isSome) :
    (bounceLoop g d (fuel + 1) ct r).isSome := by
  rw [bounceLoop_succ]
  split_ifs <;> simp [h]

lemma isSome_settle {g d : ℝ} {fuel : ℕ} {ct r : ℝ} (h : r * d ^ 2 < 0.01) :
    (bounceLoop g d (fuel + 1) ct r).isSome := by
  rw [bounceLoop_succ]
  split_ifs <;> simp_all

/-- With the source's parameters the loop always stops within 8
iterations: after at most 7 epoch subtractions the remaining height
2 * 0.49 ^ 8 falls below the settle threshold 0.01. -/
lemma bounceState_isSome (t : ℝ) : (bounceState t).isSome := by
  show (bounceLoop 9.8 0.7 (7 + 1) t 2).isSome
  apply isSome_step
  apply isSome_step
  apply isSome_step
  apply isSome_step
  apply isSome_step
  apply isSome_step
  apply isSome_step
  exact isSome_settle (by norm_num)

/-- Extra fuel does not change the result once the loop has stopped. -/
lemma bounceLoop_mono {g d : ℝ} :
    ∀ (fuel k : ℕ) (ct r : ℝ), (bounceLoop g d fuel ct r).isSome →
      bounceLoop g d (fuel + k) ct r = bounceLoop g d fuel ct r := by
  intro fuel
  induction fuel with
  | zero => intro k ct r h; rw [bounceLoop_zero] at h; simp at h
  | succ n ih =>
    intro k ct r h
    rw [show n + 1 + k = n + k + 1 by ring]
    rw [bounceLoop_succ] at h ⊢
    rw [bounceLoop_succ]
    split_ifs at h ⊢ <;> first
      | rfl
      | exact ih k _ _ h

lemma sqrt5_lb : (2.23 : ℝ) < Real.sqrt 5 := by
  have h := Real.lt_sqrt (show (0:ℝ) ≤ 2.23 by norm_num) (y := 5)
  exact h.mpr (by norm_num)

lemma sqrt5_ub : Real.sqrt 5 < 2.24 := by
  have h := Real.sqrt_lt' (show (0:ℝ) < 2.24 by norm_num) (x := 5)
  exact h.mpr (by norm_num)

/-- The first fall time sqrt(2*2/9.8) in closed form. -/
lemma sqrt_first_fall : Real.sqrt (2 * 2 / 9.8) = 2 / 7 * Real.sqrt 5 := by
  rw [show (2 * 2 / 9.8 : ℝ) = (2 / 7) ^ 2 * 5 by norm_num,
    Real.sqrt_mul (by positivity), Real.sqrt_sq (by norm_num)]

/-- The second fall time with damping 0.7 in closed form. -/
lemma sqrt_second_fall : Real.sqrt (2 * (0.98:ℝ) / 9.8) = 1 / 5 * Real.sqrt 5 := by
  rw [show (2 * (0.98:ℝ) / 9.8 : ℝ) = (1 / 5) ^ 2 * 5 by norm_num,
    Real.sqrt_mul (by positivity), Real.sqrt_sq (by norm_num)]

/-- The second fall time with damping 1.2 in closed form. -/
lemma sqrt_second_fall_bad : Real.sqrt (2 * (2.88:ℝ) / 9.8) = 12 / 35 * Real.sqrt 5 := by
  rw [show (2 * (2.88:ℝ) / 9.8 : ℝ) = (12 / 35) ^ 2 * 5 by norm_num,
    Real.sqrt_mul (by positivity), Real.sqrt_sq (by norm_num)]

end Ball

namespace Camel

lemma phase_add_half_cycle (f : ℝ) : phase (f + cycle_length / 2) = phase f + Real.pi := by
  unfold phase cycle_length
  ring

lemma legPhaseOf_zero (f : ℝ) : legPhaseOf 0 f = phase f := by
  simp [legPhaseOf]

lemma legPhaseOf_three (f : ℝ) : legPhaseOf 3 f = phase f := by
  simp [legPhaseOf]

lemma legPhaseOf_one (f : ℝ) : legPhaseOf 1 f = phase f + Real.pi := by
  simp [legPhaseOf]

lemma legPhaseOf_two (f : ℝ) : legPhaseOf 2 f = phase f + Real.pi := by
  simp [legPhaseOf]

lemma mem_ite_singleton {α : Type} {c : Bool} {k a : α}
    (h : k ∈ (if c then [a] else [])) : c = true ∧ k = a := by
  cases c <;> simp_all

lemma mem_legKeys {s : Scene} {i : Fin 4} {lp f : ℝ} {k : Key}
    (h : k ∈ legKeys s i lp f) :
    legPresent s i = true ∧
      (k = legUpperKey i lp f ∨ k = legLowerKey i lp f ∨ k = hoofKey i lp f) := by
  unfold legKeys at h
  cases hp : legPresent s i <;> rw [hp] at h <;> simp_all

/-- Case analysis for membership in a frame evaluation: every recorded
key is one of the named part keys, guarded by the presence of its part. -/
lemma mem_animateFrame_cases {s : Scene} {f : ℝ} {k : Key}
    (h : k ∈ animateFrame s f) :
    (s.body = true ∧ k = bodyKey f) ∨
    (s.head = true ∧ k = headKey f) ∨
    (s.neck = true ∧ k = neckKey f) ∨
    (s.tail = true ∧ k = tailKey f) ∨
    (s.hump = true ∧ k = humpKey f) ∨
    (s.eyeL = true ∧ k = eyeLKey f) ∨
    (s.eyeR = true ∧ k = eyeRKey f) ∨
    (s.earL = true ∧ k = earLKey f) ∨
    (s.earR = true ∧ k = earRKey f) ∨
    (s.snout = true ∧ k = snoutKey f) ∨
    (∃ (i : Fin 4) (lp : ℝ),
      (((i = 0 ∨ i = 3) ∧ lp = phase f) ∨ ((i = 1 ∨ i = 2) ∧ lp = phase f + Real.pi)) ∧
      legPresent s i = true ∧
      (k = legUpperKey i lp f ∨ k = legLowerKey i lp f ∨ k = hoofKey i lp f)) := by
  unfold animateFrame at h
  simp only [List.mem_append] at h
  rcases h with ((((((((((((h | h) | h) | h) | h) | h) | h) | h) | h) | h) | h) | h) | h) | h
  · exact Or.inl (mem_ite_singleton h)
  · exact Or.inr (Or.inl (mem_ite_singleton h))
  · exact Or.inr (Or.inr (Or.inl (mem_ite_singleton h)))
  · exact Or.inr (Or.inr (Or.inr (Or.inl (mem_ite_singleton h))))
  · exact Or.inr (Or.inr (Or.inr (Or.inr (Or.inl (mem_ite_singleton h)))))
  · exact Or.inr (Or.inr (Or.inr (Or.inr (Or.inr (Or.inl (mem_ite_singleton h))))))
  · exact Or.inr (Or.inr (Or.inr (Or.inr (Or.inr (Or.inr (Or.inl (mem_ite_singleton h)))))))
  · exact Or.inr (Or.inr (Or.inr (Or.inr (Or.inr (Or.inr (Or.inr
      (Or.inl (mem_ite_singleton h))))))))
  · exact Or.inr (Or.inr (Or.inr (Or.inr (Or.inr (Or.inr (Or.inr
      (Or.inr (Or.inl (mem_ite_singleton h)))))))))
  · exact Or.inr (Or.inr (Or.inr (Or.inr (Or.inr (Or.inr (Or.inr
      (Or.inr (Or.inr (Or.inl (mem_ite_singleton h))))))))))
  · rcases mem_legKeys h with ⟨hp, hk⟩
    iterate 10 apply Or.inr
    exact ⟨0, phase f, Or.inl ⟨Or.inl rfl, rfl⟩, hp, hk⟩
  · rcases mem_legKeys h with ⟨hp, hk⟩
    iterate 10 apply Or.inr
    exact ⟨3, phase f, Or.inl ⟨Or.inr rfl, rfl⟩, hp, hk⟩
  · rcases mem_legKeys h with ⟨hp, hk⟩
    iterate 10 apply Or.inr
    exact ⟨1, phase f + Real.pi, Or.inr ⟨Or.inl rfl, rfl⟩, hp, hk⟩
  · rcases mem_legKeys h with ⟨hp, hk⟩
    iterate 10 apply Or.inr
    exact ⟨2, phase f + Real.pi, Or.inr ⟨Or.inr rfl, rfl⟩, hp, hk⟩

/-- Claim C5: the two diagonal leg pairs are driven at phases differing by
exactly pi, and the lift computed for the second pair at frame f equals
the lift the first pair has half a gait cycle (30 frames) later; in
particular one pair's lift is positive exactly when the other's is half a
cycle later. -/
theorem diagonal_pairs_alternate :
    ∀ f : ℝ,
      legPhaseOf 1 f - legPhaseOf 0 f = Real.pi ∧
      legPhaseOf 2 f - legPhaseOf 3 f = Real.pi ∧
      lift (legPhaseOf 1 f) = lift (legPhaseOf 0 (f + cycle_length / 2)) ∧
      (0 < lift (legPhaseOf 1 f) ↔ 0 < lift (legPhaseOf 0 (f + cycle_length / 2))) := by
  intro f
  simp only [legPhaseOf_zero, legPhaseOf_one, legPhaseOf_two, legPhaseOf_three,
    phase_add_half_cycle]
  exact ⟨by ring, by ring, by trivial, by trivial⟩

/-- Claim C6: the gait lift equals max(0, sin(leg_phase)) * 0.15 and is
non-negative; whenever sin(leg_phase) is non-positive the lift is exactly
0 (foot planted); at effective phase 0 the lift is 0 while the swing is
the full swing amplitude 0.3. -/
theorem lift_nonneg_swing_at_zero :
    ∀ x : ℝ,
      lift x = max 0 (Real.sin x) * 0.15 ∧
      0 ≤ lift x ∧
      (Real.sin x ≤ 0 → lift x = 0) ∧
      lift 0 = 0 ∧ swing 0 = 0.3 := by
  intro x
  refine ⟨rfl, mul_nonneg (le_max_left 0 _) (by norm_num), fun h => ?_, ?_, ?_⟩
  · unfold lift
    rw [max_eq_left h, zero_mul]
  · unfold lift
    rw [Real.sin_zero, max_self, zero_mul]
  · unfold swing
    rw [Real.cos_zero, one_mul]

theorem lift_nonneg_swing_at_zero_witness : lift Real.pi = 0 :=
  (lift_nonneg_swing_at_zero Real.pi).2.2.1 (le_of_eq Real.sin_pi)

/-- Claim C7 fails: at frame 5 the bob term added to the head's vertical
rest position (amplitude 0.08) differs from the bob term added to the
body's vertical rest position (amplitude 0.1), so the same term is not
applied to both. -/
theorem bob_amplitudes_differ : head_z 5 - 1.9 ≠ body_z 5 - 1.2 := by
  have hp : phase 5 * 2 = Real.pi / 3 := by unfold phase; ring
  have hpos : (0:ℝ) < Real.sqrt 3 := Real.sqrt_pos.mpr (by norm_num)
  unfold head_z body_z
  rw [hp, Real.sin_pi_div_three]
  intro h
  nlinarith [hpos]

/-- Claim C7 amended: body height, head height and neck pitch all
oscillate with the shared term sin(2 * phase) at twice the gait
frequency, but with per-part amplitudes 0.1, 0.08 and 0.1 respectively
(not one single amplitude), and the neck's vertical channel is never
written, so the neck receives no vertical bob. -/
theorem bob_term_shared_oscillator :
    ∀ f : ℝ,
      body_z f = 1.2 + Real.sin (2 * phase f) * 0.1 ∧
      head_z f = 1.9 + Real.sin (2 * phase f) * 0.08 ∧
      neck_rot_y f = Real.pi / 6 + Real.sin (2 * phase f) * 0.1 ∧
      ∀ (s : Scene) (k : Key), k ∈ animateFrame s f → k.part = PartId.neck →
        k.z = none := by
  intro f
  have h2 : Real.sin (2 * phase f) = Real.sin (phase f * 2) := by rw [mul_comm]
  refine ⟨by rw [body_z, h2], by rw [head_z, h2], by rw [neck_rot_y, h2], ?_⟩
  intro s k hk hneck
  rcases mem_animateFrame_cases hk with ⟨_, rfl⟩ | ⟨_, rfl⟩ | ⟨_, rfl⟩ | ⟨_, rfl⟩ |
    ⟨_, rfl⟩ | ⟨_, rfl⟩ | ⟨_, rfl⟩ | ⟨_, rfl⟩ | ⟨_, rfl⟩ | ⟨_, rfl⟩ |
    ⟨i, lp, _, _, rfl | rfl | rfl⟩ <;>
    simp_all [bodyKey, headKey, neckKey, tailKey, humpKey, eyeLKey, eyeRKey,
      earLKey, earRKey, snoutKey, legUpperKey, legLowerKey, hoofKey]

theorem bob_term_shared_oscillator_witness :
    (bodyKey 1 ∈ animateFrame sceneFull 1 → (bodyKey 1).part = PartId.neck →
      (bodyKey 1).z = none) ∧ body_z 1 = 1.2 + Real.sin (2 * phase 1) * 0.1 :=
  ⟨(bob_term_shared_oscillator 1).2.2.2 sceneFull (bodyKey 1),
    (bob_term_shared_oscillator 1).1⟩

/-- Claim C4: every key recorded in a frame has its x channel equal to the
part's rest offset plus the shared global forward offset plus the
leg-local swing term (zero for non-leg parts); the forward offset is the
same linear function 0.05 * frame for every part. -/
theorem additive_pose_composition :
    (∀ f : ℝ, forward_offset f = f * 0.05) ∧
    ∀ (s : Scene) (f : ℝ) (k : Key), k ∈ animateFrame s f →
      k.x = some (restX k.part + forward_offset f + localX k.part f) := by
  constructor
  · intro f; unfold forward_offset; ring
  intro s f k hk
  rcases mem_animateFrame_cases hk with ⟨_, rfl⟩ | ⟨_, rfl⟩ | ⟨_, rfl⟩ | ⟨_, rfl⟩ |
    ⟨_, rfl⟩ | ⟨_, rfl⟩ | ⟨_, rfl⟩ | ⟨_, rfl⟩ | ⟨_, rfl⟩ | ⟨_, rfl⟩ |
    ⟨i, lp, hlp, _, rfl | rfl | rfl⟩
  · simp [bodyKey, restX, localX]
  · simp [headKey, restX, localX]
  · simp [neckKey, restX, localX]
  · simp [tailKey, restX, localX]
  · simp [humpKey, restX, localX]
  · simp [eyeLKey, restX, localX]
  · simp [eyeRKey, restX, localX]
  · simp [earLKey, restX, localX]
  · simp [earRKey, restX, localX]
  · simp [snoutKey, restX, localX]
  · rcases hlp with ⟨hi | hi, rfl⟩ | ⟨hi | hi, rfl⟩ <;> subst hi <;>
      simp [legUpperKey, restX, localX, legPhaseOf_zero, legPhaseOf_three,
        legPhaseOf_one, legPhaseOf_two]
  · rcases hlp with ⟨hi | hi, rfl⟩ | ⟨hi | hi, rfl⟩ <;> subst hi <;>
      simp [legLowerKey, restX, localX, legPhaseOf_zero, legPhaseOf_three,
        legPhaseOf_one, legPhaseOf_two]
  · rcases hlp with ⟨hi | hi, rfl⟩ | ⟨hi | hi, rfl⟩ <;> subst hi <;>
      simp [hoofKey, restX, localX, legPhaseOf_zero, legPhaseOf_three,
        legPhaseOf_one, legPhaseOf_two]

theorem additive_pose_composition_witness :
    bodyKey 1 ∈ animateFrame sceneFull 1 ∧
    (bodyKey 1).x =
      some (restX (bodyKey 1).part + forward_offset 1 + localX (bodyKey 1).part 1) := by
  have hm : bodyKey 1 ∈ animateFrame sceneFull 1 := by
    simp [animateFrame, sceneFull]
  exact ⟨hm, additive_pose_composition.2 sceneFull 1 (bodyKey 1) hm⟩

/-- Claim C9: an absent rig part is not an error.  If any piece of leg i
is missing, that leg is skipped for the evaluation (none of its three
parts is recorded), while every other present leg still receives its
keyframes and the body, head and neck poses are still computed and
recorded. -/
theorem missing_part_skipped :
    ∀ (s : Scene) (f : ℝ) (i : Fin 4), legPresent s i = false →
      (∀ k ∈ animateFrame s f,
        k.part ≠ PartId.legUpper i ∧ k.part ≠ PartId.legLower i ∧
          k.part ≠ PartId.hoof i) ∧
      (∀ j : Fin 4, legPresent s j = true →
        legUpperKey j (legPhaseOf j f) f ∈ animateFrame s f) ∧
      (s.body = true → bodyKey f ∈ animateFrame s f) ∧
      (s.head = true → headKey f ∈ animateFrame s f) ∧
      (s.neck = true → neckKey f ∈ animateFrame s f) := by
  intro s f i hi
  refine ⟨?_, ?_, ?_, ?_, ?_⟩
  · intro k hk
    rcases mem_animateFrame_cases hk with ⟨_, rfl⟩ | ⟨_, rfl⟩ | ⟨_, rfl⟩ | ⟨_, rfl⟩ |
      ⟨_, rfl⟩ | ⟨_, rfl⟩ | ⟨_, rfl⟩ | ⟨_, rfl⟩ | ⟨_, rfl⟩ | ⟨_, rfl⟩ |
      ⟨j, lp, _, hp, rfl | rfl | rfl⟩ <;>
      simp [bodyKey, headKey, neckKey, tailKey, humpKey, eyeLKey, eyeRKey,
        earLKey, earRKey, snoutKey, legUpperKey, legLowerKey, hoofKey]
    all_goals intro he; rw [he, hi] at hp; simp at hp
  · intro j hj
    fin_cases j <;>
      simp_all [animateFrame, legKeys, legPhaseOf_zero, legPhaseOf_three,
        legPhaseOf_one, legPhaseOf_two]
  · intro hb; simp [animateFrame, hb]
  · intro hb; simp [animateFrame, hb]
  · intro hb; simp [animateFrame, hb]

theorem missing_part_skipped_witness :
    legPresent sceneNoHoof0 0 = false ∧
    bodyKey 1 ∈ animateFrame sceneNoHoof0 1 :=
  ⟨by decide, (missing_part_skipped sceneNoHoof0 1 0 (by decide)).2.2.1 rfl⟩

end Camel

namespace Ball

/-- Claim C8: the rolling rotation satisfies rotation(t) =
-(forward_offset(t) / circumference) * 2 pi with circumference =
pi * 2 r for r = 0.5, and as a function of the forward offset the
rotation is continuous and strictly decreasing. -/
theorem rolling_rotation :
    circumference = Real.pi * (2 * 0.5) ∧
    (∀ t : ℝ,
      rotation_y t = -(forward_offset t / (Real.pi * (2 * 0.5)) * (2 * Real.pi))) ∧
    Continuous (fun x : ℝ => -(rotations x)) ∧
    StrictAnti (fun x : ℝ => -(rotations x)) ∧
    (∀ t : ℝ, rotation_y t = -(rotations (forward_offset t))) := by
  have hr : ∀ x : ℝ, rotations x = 2 * x := by
    intro x
    unfold rotations circumference
    rw [div_mul_eq_mul_div, div_mul_eq_mul_div, div_eq_iff Real.pi_ne_zero]
    ring
  have hfun : (fun x : ℝ => -(rotations x)) = fun x : ℝ => -(2 * x) :=
    funext fun x => by rw [hr]
  refine ⟨by unfold circumference; norm_num, fun t => ?_, ?_, ?_, fun t => rfl⟩
  · unfold rotation_y
    rw [hr, show Real.pi * (2 * 0.5) = Real.pi from by norm_num]
    have hx : forward_offset t / Real.pi * (2 * Real.pi) = 2 * forward_offset t := by
      field_simp
      ring
    rw [hx]
  · rw [hfun]
    exact (continuous_const.mul continuous_id).neg
  · rw [hfun]
    intro a b hab
    simp only [neg_lt_neg_iff]
    linarith

theorem rolling_rotation_witness :
    rotation_y 1 = -(rotations (forward_offset 1)) :=
  rolling_rotation.2.2.2.2 1

/-- Claim C10: for every time value the decomposition stops with a state
whose computed height is at least the resting radius 0.5; the squash
factor at such a height never drops below 0.95 and all three scale
components stay within [0.95, 1.05]. -/
theorem height_floor_and_scale_bounds :
    ∀ t : ℝ, ∃ st : ℝ × ℝ,
      bounceState t = some st ∧
      0.5 ≤ heightOf st ∧
      0.95 ≤ squashOf (heightOf st) ∧
      (0.95 ≤ (scaleOf (heightOf st)).1 ∧ (scaleOf (heightOf st)).1 ≤ 1.05) ∧
      (0.95 ≤ (scaleOf (heightOf st)).2.1 ∧ (scaleOf (heightOf st)).2.1 ≤ 1.05) ∧
      (0.95 ≤ (scaleOf (heightOf st)).2.2 ∧ (scaleOf (heightOf st)).2.2 ≤ 1.05) := by
  intro t
  obtain ⟨st, hst⟩ := Option.isSome_iff_exists.mp (bounceState_isSome t)
  have hh : 0.5 ≤ heightOf st := by
    unfold heightOf
    split_ifs
    · exact le_max_left _ _
    · exact le_refl _
  have hsq : 0.95 ≤ squashOf (heightOf st) := by
    unfold squashOf
    linarith
  refine ⟨st, hst, hh, hsq, ?_⟩
  unfold scaleOf squashOf
  split_ifs with hlt
  · refine ⟨⟨by nlinarith, by nlinarith⟩, ⟨by nlinarith, by nlinarith⟩,
      ⟨by nlinarith, by nlinarith⟩⟩
  · norm_num

/-- Claim C3: each completed bounce epoch multiplies the remaining peak
height by the damping squared; with the source parameters g = 9.8,
h0 = 2.0, d = 0.7 the decomposition at time 0 yields height 2.0, and for
any time past the first fall time 2/7 * sqrt 5 (within the second epoch)
the peak height of the next epoch is 2 * 0.49 = 0.98. -/
theorem damping_squared_epochs :
    (bounceState 0 = some (0, 2) ∧ heightOf (0, 2) = 2) ∧
    (∀ (g d : ℝ) (fuel : ℕ) (ct r : ℝ),
      Real.sqrt (2 * r / g) < ct → ¬r * d ^ 2 < 0.01 →
      bounceLoop g d (fuel + 1) ct r =
        bounceLoop g d fuel (ct - Real.sqrt (2 * r / g)) (r * d ^ 2)) ∧
    (∀ t : ℝ, 2 / 7 * Real.sqrt 5 < t → t ≤ 17 / 35 * Real.sqrt 5 →
      bounceState t = some (t - 2 / 7 * Real.sqrt 5, 0.98)) := by
  refine ⟨⟨?_, ?_⟩, ?_, ?_⟩
  · show bounceLoop 9.8 0.7 (7 + 1) 0 2 = some (0, 2)
    rw [bounceLoop_succ, if_neg (by norm_num)]
  · unfold heightOf gravity
    rw [if_pos (by norm_num)]
    rw [show (2:ℝ) - 0.5 * 9.8 * (0:ℝ) ^ 2 = 2 by norm_num]
    exact max_eq_right (by norm_num)
  · intro g d fuel ct r h1 h2
    rw [bounceLoop_succ,
      if_pos (lt_of_le_of_lt (Real.sqrt_nonneg _) h1),
      if_neg (not_le.mpr h1), if_neg h2]
  · intro t h1 h2
    show bounceLoop 9.8 0.7 (7 + 1) t 2 = _
    have h0 : 0 < t := lt_trans (by positivity) h1
    rw [bounceLoop_succ, if_pos h0,
      if_neg (by rw [sqrt_first_fall]; exact not_le.mpr h1),
      if_neg (by norm_num), sqrt_first_fall,
      show (2 * (0.7:ℝ) ^ 2 : ℝ) = 0.98 by norm_num,
      show (7:ℕ) = 6 + 1 from rfl, bounceLoop_succ,
      if_pos (by linarith),
      if_pos (by rw [sqrt_second_fall]; linarith)]

theorem damping_squared_epochs_witness :
    (2 / 7 * Real.sqrt 5 < 1 ∧ (1:ℝ) ≤ 17 / 35 * Real.sqrt 5) ∧
    bounceState 1 = some (1 - 2 / 7 * Real.sqrt 5, 0.98) := by
  have h1 : 2 / 7 * Real.sqrt 5 < 1 := by linarith [sqrt5_ub]
  have h2 : (1:ℝ) ≤ 17 / 35 * Real.sqrt 5 := by linarith [sqrt5_lb]
  exact ⟨⟨h1, h2⟩, damping_squared_epochs.2.2 1 h1 h2⟩

/-- Claim C2 fails: the loop has no iteration cap and no fatal-error
outcome.  With damping 1 the remaining height never decays below the
settle threshold (the case the specification calls pathological), yet
evaluating time 1 simply returns the normal second-epoch state after
finitely many iterations instead of failing. -/
theorem no_iteration_cap_error :
    bounceLoop gravity 1 10 1 initial_height = some (1 - 2 / 7 * Real.sqrt 5, 2) := by
  show bounceLoop 9.8 1 (9 + 1) 1 2 = _
  rw [bounceLoop_succ, if_pos (by norm_num),
    if_neg (by rw [sqrt_first_fall]; intro hle; nlinarith [sqrt5_ub]),
    if_neg (by norm_num), sqrt_first_fall,
    show (2 * (1:ℝ) ^ 2 : ℝ) = 2 by norm_num,
    show (9:ℕ) = 8 + 1 from rfl, bounceLoop_succ,
    if_pos (by nlinarith [sqrt5_ub]),
    if_pos (by rw [sqrt_first_fall]; nlinarith [sqrt5_lb])]

/-- Claim C2 amended: the decomposition loop is iterative and stops for
every time value, not because of an iteration cap (the source has none,
and no fatal-error path) but because with its parameters the remaining
height falls below the settle threshold 0.01 after at most 8 iterations;
any fuel of at least 8 yields the identical result. -/
theorem bounce_decomposition_terminates :
    ∀ t : ℝ, (bounceState t).isSome = true ∧
      ∀ fuel : ℕ, 8 ≤ fuel →
        bounceLoop gravity bounce_damping fuel t initial_height = bounceState t := by
  intro t
  refine ⟨bounceState_isSome t, fun fuel hf => ?_⟩
  obtain ⟨k, rfl⟩ := Nat.exists_eq_add_of_le hf
  exact bounceLoop_mono 8 k t initial_height (bounceState_isSome t)

theorem bounce_decomposition_terminates_witness :
    (8:ℕ) ≤ 9 ∧
    bounceLoop gravity bounce_damping 9 5 initial_height = bounceState 5 :=
  ⟨by norm_num, (bounce_decomposition_terminates 5).2 9 (by norm_num)⟩

/-- Claim C1 fails: with the invalid damping 1.2 (outside the open
interval (0,1)) the model does not fail at all: evaluating the first
output frame time 1/24 returns the normal first-epoch state instead of
raising any validation error. -/
theorem invalid_damping_first_frame_evaluates :
    bounceLoop gravity 1.2 8 (1 / 24) initial_height = some (1 / 24, 2) := by
  show bounceLoop 9.8 1.2 (7 + 1) (1 / 24) 2 = _
  rw [bounceLoop_succ, if_pos (by norm_num),
    if_pos (by rw [sqrt_first_fall]; nlinarith [sqrt5_lb])]

/-- Claim C1 amended: the source performs no parameter validation (its
parameters are hardcoded constants), and the evaluation applied to the
out-of-range damping 1.2 proceeds silently, using the value as-is: every
first-epoch time returns the unchanged peak 2, and every second-epoch
time returns a peak grown to 2 * 1.2 ^ 2 = 2.88, neither clamped nor
rejected. -/
theorem no_damping_validation :
    ∀ t : ℝ,
      (0 < t → t ≤ 2 / 7 * Real.sqrt 5 →
        bounceLoop gravity 1.2 8 t initial_height = some (t, 2)) ∧
      (2 / 7 * Real.sqrt 5 < t → t ≤ 22 / 35 * Real.sqrt 5 →
        bounceLoop gravity 1.2 8 t initial_height = some (t - 2 / 7 * Real.sqrt 5, 2.88)) := by
  intro t
  constructor
  · intro h0 h1
    show bounceLoop 9.8 1.2 (7 + 1) t 2 = _
    rw [bounceLoop_succ, if_pos h0,
      if_pos (by rw [sqrt_first_fall]; exact h1)]
  · intro h1 h2
    show bounceLoop 9.8 1.2 (7 + 1) t 2 = _
    have h0 : 0 < t := lt_trans (by positivity) h1
    rw [bounceLoop_succ, if_pos h0,
      if_neg (by rw [sqrt_first_fall]; exact not_le.mpr h1),
      if_neg (by norm_num), sqrt_first_fall,
      show (2 * (1.2:ℝ) ^ 2 : ℝ) = 2.88 by norm_num,
      show (7:ℕ) = 6 + 1 from rfl, bounceLoop_succ,
      if_pos (by linarith),
      if_pos (by rw [sqrt_second_fall_bad]; linarith)]

theorem no_damping_validation_witness :
    (2 / 7 * Real.sqrt 5 < 1 ∧ (1:ℝ) ≤ 22 / 35 * Real.sqrt 5) ∧
    bounceLoop gravity 1.2 8 1 initial_height = some (1 - 2 / 7 * Real.sqrt 5, 2.88) := by
  have h1 : 2 / 7 * Real.sqrt 5 < 1 := by linarith [sqrt5_ub]
  have h2 : (1:ℝ) ≤ 22 / 35 * Real.sqrt 5 := by linarith [sqrt5_lb]
  exact ⟨⟨h1, h2⟩, (no_damping_validation 1).2 h1 h2⟩

end Ball

end Rig
